import Mathlib

/-!
Verification of the mcp-composer core against its specification.

The Python source is embedded shallowly:

* Python `dict` (insertion-ordered, unique string keys) is modelled as an
  association list `List (String × β)` together with the operations `dget?`
  (subscript read), `dinsert` (subscript write: update in place when the key
  exists, append otherwise), `derase` (`del`), and `dkeys` (iteration order
  of the keys).  Key uniqueness, which is intrinsic to Python dicts, appears
  as explicit `Nodup` hypotheses where a proof needs it.
* Python `list.remove` (first occurrence) is `listRemove`.
* Raising `KeyError` is modelled by returning `none` / an error value.
-/

namespace MCPComposer

/-- Dictionary read `m[k]`, `none` when the key is absent (Python `KeyError`). -/
def dget? {β : Type} : List (String × β) → String → Option β
  | [], _ => none
  | (k, v) :: rest, key => if k = key then some v else dget? rest key

/-- Python `key in m`. -/
def dmem {β : Type} (m : List (String × β)) (k : String) : Bool :=
  (dget? m k).isSome

/-- Dictionary write `m[k] = v`: replaces the value in place when the key is
present (keeping its position), appends a new binding otherwise.  (Keys of a
Python dict are unique, so replacing the first occurrence is exact.) -/
def dinsert {β : Type} : List (String × β) → String → β → List (String × β)
  | [], k, v => [(k, v)]
  | (a, b) :: rest, k, v =>
    if a = k then (k, v) :: rest else (a, b) :: dinsert rest k v

/-- Python `del m[k]`: removes the binding for `k`. -/
def derase {β : Type} (m : List (String × β)) (k : String) : List (String × β) :=
  m.filter (fun p => p.1 ≠ k)

/-- Iteration order of the keys of a dict. -/
def dkeys {β : Type} (m : List (String × β)) : List String :=
  m.map Prod.fst

/-- Python `list.remove`: removes the first occurrence (no-op when absent;
every call site in the source guards membership first). -/
def listRemove : List String → String → List String
  | [], _ => []
  | x :: rest, y => if x = y then rest else x :: listRemove rest y

/-! ### Basic dictionary lemmas -/

theorem dget?_append {β : Type} (m₁ m₂ : List (String × β)) (k : String) :
    dget? (m₁ ++ m₂) k = ((dget? m₁ k).or (dget? m₂ k)) := by
  induction m₁ with
  | nil => simp [dget?]
  | cons p rest ih =>
    by_cases h : p.1 = k <;> simp [dget?, h, ih]

theorem dget?_dinsert_self {β : Type} (m : List (String × β)) (k : String) (v : β) :
    dget? (dinsert m k v) k = some v := by
  induction m with
  | nil => simp [dinsert, dget?]
  | cons p rest ih =>
    obtain ⟨a, b⟩ := p
    by_cases hp : a = k
    · simp [dinsert, hp, dget?]
    · simp [dinsert, hp, dget?, ih]

theorem derase_dinsert_self {β : Type} (m : List (String × β)) (k : String) (v : β) :
    derase (dinsert m k v) k = derase m k := by
  induction m with
  | nil => simp [dinsert, derase, List.filter_cons]
  | cons p rest ih =>
    obtain ⟨a, b⟩ := p
    by_cases hp : a = k
    · simp [dinsert, hp, derase, List.filter_cons]
    · simp only [dinsert, hp, if_false]
      simp [derase, List.filter_cons, hp] at ih ⊢
      exact ih

theorem dkeys_dinsert_of_mem {β : Type} (m : List (String × β)) (k : String) (v : β)
    (h : (dget? m k).isSome) : dkeys (dinsert m k v) = dkeys m := by
  induction m with
  | nil => simp [dget?] at h
  | cons p rest ih =>
    obtain ⟨a, b⟩ := p
    by_cases hp : a = k
    · simp [dinsert, hp, dkeys]
    · simp only [dget?, hp, if_false] at h
      simp [dinsert, hp, dkeys] at ih ⊢
      exact ih h

/-! ### ServerKit (src/domain/server_kit.py) -/

/-- `ServerKit` (pydantic model in src/domain/server_kit.py): dict fields are
association lists in insertion order. -/
structure ServerKit where
  name : String
  enabled : Bool
  assigned_servers : List String
  servers_enabled : List (String × Bool)
  tools_enabled : List (String × Bool)
  servers_tools_hierarchy_map : List (String × List String)
  tools_servers_map : List (String × String)
  deriving Repr, DecidableEq

namespace ServerKit

/-- `ServerKit.new_server_kit`. -/
def new_server_kit (name : String) : ServerKit :=
  { name := name
    enabled := true
    assigned_servers := []
    servers_enabled := []
    tools_enabled := []
    servers_tools_hierarchy_map := []
    tools_servers_map := []}

/-- Loop body of `ServerKit.list_enabled_tool_names`, iterating over the
entries of `tools_enabled`.  A failed subscript (`KeyError`) is `none`. -/
def listEnabledAux (k : ServerKit) : List (String × Bool) → Option (List String)
  | [] => some []
  | (tool_name, enabled) :: rest =>
    match dget? k.tools_servers_map tool_name with
    | none => none
    | some server_name =>
      if !k.assigned_servers.isEmpty && !k.assigned_servers.contains server_name then
        listEnabledAux k rest
      else
        match dget? k.servers_enabled server_name with
        | none => none
        | some server_enabled =>
          if !server_enabled then listEnabledAux k rest
          else if !enabled then listEnabledAux k rest
          else (listEnabledAux k rest).map (tool_name :: ·)

/-- `ServerKit.list_enabled_tool_names`. -/
def list_enabled_tool_names (k : ServerKit) : Option (List String) :=
  listEnabledAux k k.tools_enabled

/-- `ServerKit.disable_kit`. -/
def disable_kit (k : ServerKit) : ServerKit := { k with enabled := false }

/-- `ServerKit.enable_kit`. -/
def enable_kit (k : ServerKit) : ServerKit := { k with enabled := true }

/-- `ServerKit.disable_server`. -/
def disable_server (k : ServerKit) (server_name : String) : ServerKit :=
  { k with servers_enabled := dinsert k.servers_enabled server_name false }

/-- `ServerKit.enable_server`. -/
def enable_server (k : ServerKit) (server_name : String) : ServerKit :=
  { k with servers_enabled := dinsert k.servers_enabled server_name true }

/-- `ServerKit.disable_tool`. -/
def disable_tool (k : ServerKit) (tool_name : String) : ServerKit :=
  { k with tools_enabled := dinsert k.tools_enabled tool_name false }

/-- `ServerKit.enable_tool`. -/
def enable_tool (k : ServerKit) (tool_name : String) : ServerKit :=
  { k with tools_enabled := dinsert k.tools_enabled tool_name true }

/-- `ServerKit.assign_mcp_server`. -/
def assign_mcp_server (k : ServerKit) (server_name : String) : ServerKit :=
  if k.assigned_servers.contains server_name then k
  else
    { k with
      assigned_servers := k.assigned_servers ++ [server_name]
      servers_enabled := dinsert k.servers_enabled server_name true }

/-- `del m[t]` for each `t` in `ks` that is present (`if t in m: del m[t]`). -/
def eraseKeysGuarded {β : Type} (m : List (String × β)) (ks : List String) :
    List (String × β) :=
  ks.foldl (fun acc t => if (dget? acc t).isSome then derase acc t else acc) m

/-- `ServerKit.unassign_mcp_server`. -/
def unassign_mcp_server (k : ServerKit) (server_name : String) : ServerKit :=
  if k.assigned_servers.contains server_name then
    let assigned' := listRemove k.assigned_servers server_name
    let se' :=
      if (dget? k.servers_enabled server_name).isSome then
        derase k.servers_enabled server_name
      else k.servers_enabled
    let tools_to_remove :=
      (k.tools_servers_map.filter (fun p => p.2 = server_name)).map Prod.fst
    let te' := eraseKeysGuarded k.tools_enabled tools_to_remove
    let map' := eraseKeysGuarded k.tools_servers_map tools_to_remove
    let h' :=
      if (dget? k.servers_tools_hierarchy_map server_name).isSome then
        derase k.servers_tools_hierarchy_map server_name
      else k.servers_tools_hierarchy_map
    { k with
      assigned_servers := assigned'
      servers_enabled := se'
      tools_enabled := te'
      tools_servers_map := map'
      servers_tools_hierarchy_map := h' }
  else k

/-- `ServerKit.is_server_assigned`. -/
def is_server_assigned (k : ServerKit) (server_name : String) : Bool :=
  k.assigned_servers.contains server_name

end ServerKit

/-! ### Claim C1 -/

/-- The visibility condition of the claim, per `tools_enabled` entry: the
entry's own flag is true, the owning server (via `tools_servers_map`) is
enabled, and — only when `assigned_servers` is non-empty — the owning server
is assigned. -/
def specToolVisible (k : ServerKit) (p : String × Bool) : Bool :=
  match dget? k.tools_servers_map p.1 with
  | none => false
  | some s =>
    p.2 && ((dget? k.servers_enabled s).getD false) &&
      (k.assigned_servers.isEmpty || k.assigned_servers.contains s)

theorem listEnabledAux_eq_filter (k : ServerKit) (l : List (String × Bool))
    (hcons : ∀ p ∈ l,
      ((dget? k.tools_servers_map p.1).bind (fun s => dget? k.servers_enabled s)).isSome) :
    k.listEnabledAux l = some ((l.filter (specToolVisible k)).map Prod.fst) := by
  induction l with
  | nil => simp [ServerKit.listEnabledAux]
  | cons p rest ih =>
    obtain ⟨t, en⟩ := p
    have hp := hcons (t, en) (List.mem_cons_self _ _)
    have hrest := fun q hq => hcons q (List.mem_cons_of_mem _ hq)
    have ihr := ih hrest
    cases hmap : dget? k.tools_servers_map t with
    | none => rw [hmap] at hp; simp at hp
    | some s =>
      rw [hmap] at hp
      simp only [Option.some_bind] at hp
      cases hse : dget? k.servers_enabled s with
      | none => rw [hse] at hp; simp at hp
      | some sen =>
        have hvis : ∀ b, specToolVisible k (t, b) =
            (b && sen && (k.assigned_servers.isEmpty || k.assigned_servers.contains s)) := by
          intro b
          simp [specToolVisible, hmap, hse]
        by_cases hemp : k.assigned_servers = []
        · cases sen <;> cases en <;>
            simp [ServerKit.listEnabledAux, hmap, hse, hemp, ihr,
              List.filter_cons, hvis]
        · by_cases hmem : s ∈ k.assigned_servers
          · cases sen <;> cases en <;>
              simp [ServerKit.listEnabledAux, hmap, hse, hemp, hmem, ihr,
                List.filter_cons, hvis]
          · simp [ServerKit.listEnabledAux, hmap, hse, hemp, hmem, ihr,
              List.filter_cons, hvis]

/-- C1: on a `ServerKit` whose maps are mutually consistent (every
`tools_enabled` key resolves through `tools_servers_map` to a server with a
`servers_enabled` entry), `list_enabled_tool_names` succeeds and returns
exactly the `tools_enabled` entries whose own flag is true, whose owning
server is enabled, and — when `assigned_servers` is non-empty — whose owning
server is assigned; an empty `assigned_servers` disables the assignment
filter. -/
theorem c1_list_enabled_tool_names (k : ServerKit)
    (hcons : ∀ p ∈ k.tools_enabled,
      ((dget? k.tools_servers_map p.1).bind (fun s => dget? k.servers_enabled s)).isSome) :
    k.list_enabled_tool_names =
      some ((k.tools_enabled.filter (specToolVisible k)).map Prod.fst) :=
  listEnabledAux_eq_filter k k.tools_enabled hcons

/-- Scenario S2 of the spec: servers `A` (tools `A-t1`, `A-t2`) and `B`
(tool `B-t1`), everything enabled, only `A` assigned. -/
def kitS2 : ServerKit :=
  { name := "K"
    enabled := true
    assigned_servers := ["A"]
    servers_enabled := [("A", true), ("B", true)]
    tools_enabled := [("A-t1", true), ("A-t2", true), ("B-t1", true)]
    servers_tools_hierarchy_map := [("A", ["A-t1", "A-t2"]), ("B", ["B-t1"])]
    tools_servers_map := [("A-t1", "A"), ("A-t2", "A"), ("B-t1", "B")]}

/-- Witness for C1 on scenario S2: the assignment filter hides `B-t1`. -/
theorem c1_witness :
    kitS2.list_enabled_tool_names =
        some ((kitS2.tools_enabled.filter (specToolVisible kitS2)).map Prod.fst) ∧
      (kitS2.tools_enabled.filter (specToolVisible kitS2)).map Prod.fst =
        ["A-t1", "A-t2"] :=
  ⟨c1_list_enabled_tool_names kitS2 (by decide), by decide⟩

/-! ### Claim C4 — the kit structural invariant under enable/disable tool -/

/-- The structural invariant of the claim, as a decidable check: every key `t`
of `tools_enabled` maps through `tools_servers_map` to a server present in
`servers_tools_hierarchy_map`, and `t` appears in that server's hierarchy
entry. -/
def kitInvB (k : ServerKit) : Bool :=
  (dkeys k.tools_enabled).all (fun t =>
    match dget? k.tools_servers_map t with
    | none => false
    | some s =>
      match dget? k.servers_tools_hierarchy_map s with
      | none => false
      | some tools => tools.contains t)

/-- C4 counterexample: on the empty kit (which satisfies the invariant),
`enable_tool` with a tool name unknown to the kit — exactly what the
`POST .../tools/.../enable` endpoint passes through — adds an orphan
`tools_enabled` key and breaks the invariant. -/
theorem c4_counterexample :
    kitInvB (ServerKit.new_server_kit "K") = true ∧
      kitInvB ((ServerKit.new_server_kit "K").enable_tool "ghost-x") = false := by
  decide

/-- C4 amended: the structural invariant is preserved by `enable_tool` and
`disable_tool` provided the tool name is already a key of `tools_enabled`;
an unknown tool name (reachable through the HTTP endpoints) violates it. -/
theorem c4_amended_invariant (k : ServerKit) (t : String)
    (hinv : kitInvB k = true) (hmem : (dget? k.tools_enabled t).isSome) :
    kitInvB (k.enable_tool t) = true ∧ kitInvB (k.disable_tool t) = true := by
  have h1 : dkeys (dinsert k.tools_enabled t true) = dkeys k.tools_enabled :=
    dkeys_dinsert_of_mem _ _ _ hmem
  have h2 : dkeys (dinsert k.tools_enabled t false) = dkeys k.tools_enabled :=
    dkeys_dinsert_of_mem _ _ _ hmem
  simp only [kitInvB] at hinv
  constructor
  · simp only [kitInvB, ServerKit.enable_tool, h1]
    exact hinv
  · simp only [kitInvB, ServerKit.disable_tool, h2]
    exact hinv

/-- Witness for the amended C4 at a concrete kit and known tool. -/
theorem c4_amended_witness :
    kitInvB (kitS2.enable_tool "A-t1") = true ∧
      kitInvB (kitS2.disable_tool "A-t1") = true :=
  c4_amended_invariant kitS2 "A-t1" (by decide) (by decide)

/-! ### Claim C7 — assign/unassign round trip -/

theorem listRemove_append_self (l : List String) (s : String) (h : s ∉ l) :
    listRemove (l ++ [s]) s = l := by
  induction l with
  | nil => simp [listRemove]
  | cons x rest ih =>
    have hx : ¬x = s := by
      rintro rfl
      exact h (List.mem_cons_self _ _)
    have hr : s ∉ rest := fun hm => h (List.mem_cons_of_mem _ hm)
    simp [listRemove, hx, ih hr]

theorem derase_of_not_mem {β : Type} (m : List (String × β)) (t : String)
    (h : dget? m t = none) : derase m t = m := by
  induction m with
  | nil => rfl
  | cons p rest ih =>
    obtain ⟨a, b⟩ := p
    by_cases ha : a = t
    · subst ha; simp [dget?] at h
    · simp only [dget?, ha, if_false] at h
      unfold derase at ih ⊢
      rw [List.filter_cons, if_pos (by simp [ha]), ih h]

theorem guardedErase_step {β : Type} (m : List (String × β)) (t : String) :
    (if (dget? m t).isSome then derase m t else m) = derase m t := by
  by_cases h : (dget? m t).isSome
  · simp [h]
  · rw [Option.not_isSome_iff_eq_none] at h
    simp [h, derase_of_not_mem m t h]

theorem eraseKeysGuarded_eq_filter {β : Type} (ks : List String)
    (m : List (String × β)) :
    ServerKit.eraseKeysGuarded m ks = m.filter (fun p => !ks.contains p.1) := by
  induction ks generalizing m with
  | nil => simp [ServerKit.eraseKeysGuarded]
  | cons t ks ih =>
    have hstep : ServerKit.eraseKeysGuarded m (t :: ks) =
        ServerKit.eraseKeysGuarded (derase m t) ks := by
      simp [ServerKit.eraseKeysGuarded, List.foldl_cons, guardedErase_step]
    rw [hstep, ih]
    unfold derase
    rw [List.filter_filter]
    apply List.filter_congr
    intro p _
    by_cases hp : p.1 = t <;> simp [hp]

theorem dget?_eq_some_of_mem {β : Type} (m : List (String × β)) (p : String × β)
    (hnd : (dkeys m).Nodup) (hp : p ∈ m) : dget? m p.1 = some p.2 := by
  induction m with
  | nil => simp at hp
  | cons q rest ih =>
    obtain ⟨a, b⟩ := q
    simp only [dkeys, List.map_cons, List.nodup_cons] at hnd
    rcases List.mem_cons.mp hp with heq | hmem
    · subst heq; simp [dget?]
    · have hne : ¬a = p.1 := by
        intro he
        exact hnd.1 (he ▸ List.mem_map_of_mem Prod.fst hmem)
      have hnd' : (dkeys rest).Nodup := hnd.2
      simp [dget?, hne, ih hnd' hmem]

theorem mem_of_dget?_eq_some {β : Type} (m : List (String × β)) (t : String) (v : β)
    (h : dget? m t = some v) : (t, v) ∈ m := by
  induction m with
  | nil => simp [dget?] at h
  | cons q rest ih =>
    obtain ⟨a, b⟩ := q
    by_cases ha : a = t
    · subst ha
      have hb : b = v := by simpa [dget?] using h
      subst hb
      exact List.mem_cons_self _ _
    · simp only [dget?, ha, if_false] at h
      exact List.mem_cons_of_mem _ (ih h)

theorem mem_toolsToRemove_iff (m : List (String × String)) (s t : String)
    (hnd : (dkeys m).Nodup) :
    t ∈ (m.filter (fun p => p.2 = s)).map Prod.fst ↔ dget? m t = some s := by
  constructor
  · intro h
    rcases List.mem_map.mp h with ⟨p, hpmem, hpt⟩
    rcases List.mem_filter.mp hpmem with ⟨hm, hps⟩
    have hval := dget?_eq_some_of_mem m p hnd hm
    rw [hpt] at hval
    simp only [decide_eq_true_eq] at hps
    rw [hps] at hval
    exact hval
  · intro h
    exact List.mem_map.2
      ⟨(t, s), List.mem_filter.2 ⟨mem_of_dget?_eq_some m t s h, by simp⟩, rfl⟩

/-- The target state named by the claim: the starting kit restricted to keys
whose server is not `s` (the `servers_enabled` entry for `s`, every tool entry
mapped to `s`, and the hierarchy entry for `s` removed; everything else
untouched). -/
def kitRestrict (k : ServerKit) (s : String) : ServerKit :=
  { k with
    servers_enabled := derase k.servers_enabled s
    tools_enabled := k.tools_enabled.filter
      (fun p => !(decide (dget? k.tools_servers_map p.1 = some s)))
    tools_servers_map := k.tools_servers_map.filter (fun p => !(decide (p.2 = s)))
    servers_tools_hierarchy_map := derase k.servers_tools_hierarchy_map s }

/-- C7: for a kit `K` and server `s ∉ K.assigned_servers` (with dict keys
unique, as in Python), `assign` followed by `unassign` leaves exactly the
starting state restricted to keys whose server is not `s`:
`assigned_servers` is restored, the `servers_enabled`, tool and hierarchy
entries for `s` are absent, and entries of other servers are unchanged. -/
theorem c7_assign_unassign (k : ServerKit) (s : String)
    (h1 : s ∉ k.assigned_servers)
    (h2 : (dkeys k.tools_servers_map).Nodup) :
    (k.assign_mcp_server s).unassign_mcp_server s = kitRestrict k s := by
  have hc1 : k.assigned_servers.contains s = false := by
    simpa using h1
  have hassign : k.assign_mcp_server s =
      { k with
        assigned_servers := k.assigned_servers ++ [s]
        servers_enabled := dinsert k.servers_enabled s true } := by
    simp [ServerKit.assign_mcp_server, h1]
  rw [hassign]
  have hc2 : ((k.assigned_servers ++ [s]).contains s) = true := by simp
  simp only [ServerKit.unassign_mcp_server, hc2, if_true]
  have hse : derase (dinsert k.servers_enabled s true) s = derase k.servers_enabled s :=
    derase_dinsert_self _ _ _
  have hsome : (dget? (dinsert k.servers_enabled s true) s).isSome := by
    rw [dget?_dinsert_self]; rfl
  have httr : ∀ t, t ∈ (k.tools_servers_map.filter (fun p => p.2 = s)).map Prod.fst ↔
      dget? k.tools_servers_map t = some s :=
    fun t => mem_toolsToRemove_iff k.tools_servers_map s t h2
  have hte : ServerKit.eraseKeysGuarded k.tools_enabled
        ((k.tools_servers_map.filter (fun p => p.2 = s)).map Prod.fst) =
      k.tools_enabled.filter
        (fun p => !(decide (dget? k.tools_servers_map p.1 = some s))) := by
    rw [eraseKeysGuarded_eq_filter]
    apply List.filter_congr
    intro p _
    by_cases hd : dget? k.tools_servers_map p.1 = some s
    · simp [hd, (httr p.1).mpr hd]
    · have : p.1 ∉ (k.tools_servers_map.filter (fun p => p.2 = s)).map Prod.fst :=
        fun hmem => hd ((httr p.1).mp hmem)
      simp [hd, this]
  have hmap : ServerKit.eraseKeysGuarded k.tools_servers_map
        ((k.tools_servers_map.filter (fun p => p.2 = s)).map Prod.fst) =
      k.tools_servers_map.filter (fun p => !(decide (p.2 = s))) := by
    rw [eraseKeysGuarded_eq_filter]
    apply List.filter_congr
    intro p hp
    have hval := dget?_eq_some_of_mem k.tools_servers_map p h2 hp
    by_cases hps : p.2 = s
    · have : dget? k.tools_servers_map p.1 = some s := by rw [hval, hps]
      simp [hps, (httr p.1).mpr this]
    · have : p.1 ∉ (k.tools_servers_map.filter (fun p => p.2 = s)).map Prod.fst := by
        intro hmem
        have := (httr p.1).mp hmem
        rw [hval] at this
        exact hps (Option.some.injEq _ _ ▸ this)
      simp [hps, this]
  rw [listRemove_append_self _ _ h1, guardedErase_step, guardedErase_step, hse,
    hte, hmap]
  simp only [kitRestrict]

/-- Witness for C7: assigning then unassigning `B` on the S2 kit restores the
original kit minus all `B` entries. -/
theorem c7_witness :
    (kitS2.assign_mcp_server "B").unassign_mcp_server "B" = kitRestrict kitS2 "B" :=
  c7_assign_unassign kitS2 "B" (by decide) (by decide)

/-! ### ConfigurationManager (src/config_manager.py)

The on-disk JSON document is modelled as a `JValue`; `json.dump` followed by
`json.load` round-trips a JSON value, so a file simply stores the value.  The
file system visible to the manager is a map from path to parsed content, and
the outcome of the write in `save_configuration` is an explicit parameter
(`WriteOutcome`), since the OS-level failure is outside the program. -/

/-- A JSON value. -/
inductive JValue : Type
  | null : JValue
  | bool : Bool → JValue
  | num : Int → JValue
  | str : String → JValue
  | arr : List JValue → JValue
  | obj : List (String × JValue) → JValue

/-- A JSON object document: the top-level shape of the configuration file. -/
abbrev JObj := List (String × JValue)

/-- File system state: path → parsed content of the file stored there. -/
abbrev FSm := List (String × JValue)

/-- Index of the last occurrence of `c` in a list of characters. -/
def lastIdxOfAux (c : Char) : List Char → Nat → Option Nat → Option Nat
  | [], _, acc => acc
  | x :: rest, i, acc =>
    lastIdxOfAux c rest (i + 1) (if x = c then some i else acc)

/-- `pathlib.PurePath.with_suffix` for ordinary paths: replaces the final
extension of the last path component (a leading dot, as in `.bashrc`, is not
an extension), appending when there is none. -/
def withSuffix (path suffix : String) : String :=
  let cs := path.toList
  let nameStart :=
    match lastIdxOfAux '/' cs 0 none with
    | some i => i + 1
    | none => 0
  let dir := cs.take nameStart
  let name := cs.drop nameStart
  let stem :=
    match lastIdxOfAux '.' name 0 none with
    | some i => if 0 < i then name.take i else name
    | none => name
  (dir ++ stem).asString ++ suffix

/-- `os.rename(src, dst)`: moves the content, overwriting `dst` (no-op when
`src` is absent; call sites guard existence). -/
def renameFile (fs : FSm) (src dst : String) : FSm :=
  match dget? fs src with
  | none => fs
  | some c => dinsert (derase fs src) dst c

/-- Outcome of the `open`/`json.dump` write inside `save_configuration`:
either it succeeds, or it raises, leaving `leftover` at the target path
(`none` when the file was never created, partial content otherwise). -/
inductive WriteOutcome : Type
  | ok : WriteOutcome
  | fail : Option JValue → WriteOutcome

/-- `ConfigurationManager.save_configuration`: back up the target to
`config_path.with_suffix('.bak')` when it exists, write the document, and on
write failure rename the backup back and re-raise (the returned `Bool` is the
success flag; `false` models the re-raised exception). -/
def save_configuration (config_path : String) (config_data : JObj)
    (w : WriteOutcome) (fs : FSm) : Bool × FSm :=
  let backup_path := withSuffix config_path ".bak"
  let fs1 :=
    if (dget? fs config_path).isSome then renameFile fs config_path backup_path
    else fs
  match w with
  | .ok => (true, dinsert fs1 config_path (JValue.obj config_data))
  | .fail leftover =>
    let fs2 :=
      match leftover with
      | none => derase fs1 config_path
      | some c => dinsert fs1 config_path c
    let fs3 :=
      if (dget? fs2 backup_path).isSome then renameFile fs2 backup_path config_path
      else fs2
    (false, fs3)

/-- `ConfigurationManager.load_configuration`: default empty document when the
file is absent; otherwise parse and ensure both top-level sections exist.
`none` models the raised error for a document that is not a JSON object
(the subscript assignments in the source fail on any other shape). -/
def load_configuration (config_path : String) (fs : FSm) : Option JObj :=
  match dget? fs config_path with
  | none => some [("mcpServers", JValue.obj []), ("serverKitAssignments", JValue.obj [])]
  | some (JValue.obj data) =>
    let d1 :=
      if (dget? data "mcpServers").isSome then data
      else dinsert data "mcpServers" (JValue.obj [])
    let d2 :=
      if (dget? d1 "serverKitAssignments").isSome then d1
      else dinsert d1 "serverKitAssignments" (JValue.obj [])
    some d2
  | some _ => none

/-! ### Claim C8 — save/load round trip -/

/-- `normalize` as worded by the claim: the identity on the document, except
that an empty `mcpServers` object and an empty `serverKitAssignments` object
are added when those top-level keys are missing. -/
def normalizeDoc (doc : JObj) : JObj :=
  let d1 :=
    if (dget? doc "mcpServers").isSome then doc
    else dinsert doc "mcpServers" (JValue.obj [])
  if (dget? d1 "serverKitAssignments").isSome then d1
  else dinsert d1 "serverKitAssignments" (JValue.obj [])

/-- C8: for every configuration document (JSON object), a successful
`save_configuration` followed by `load_configuration` yields exactly
`normalize` of the document. -/
theorem c8_save_load_roundtrip (config_path : String) (doc : JObj) (fs : FSm) :
    load_configuration config_path
        (save_configuration config_path doc WriteOutcome.ok fs).2 =
      some (normalizeDoc doc) := by
  simp only [save_configuration]
  simp only [load_configuration, dget?_dinsert_self, normalizeDoc]

/-! ### Claim C2 — atomic save with backup -/

theorem dget?_dinsert_ne {β : Type} (m : List (String × β)) (k k' : String) (v : β)
    (h : ¬k' = k) : dget? (dinsert m k v) k' = dget? m k' := by
  have hkk : ¬k = k' := fun he => h he.symm
  induction m with
  | nil => simp [dinsert, dget?, hkk]
  | cons p rest ih =>
    obtain ⟨a, b⟩ := p
    by_cases ha : a = k
    · subst ha
      have hne : ¬a = k' := hkk
      simp [dinsert, dget?, hne]
    · simp [dinsert, dget?, ha, ih]

theorem dget?_derase_ne {β : Type} (m : List (String × β)) (k k' : String)
    (h : ¬k' = k) : dget? (derase m k) k' = dget? m k' := by
  induction m with
  | nil => rfl
  | cons p rest ih =>
    obtain ⟨a, b⟩ := p
    unfold derase at ih ⊢
    rw [List.filter_cons]
    by_cases ha : a = k
    · have hne : ¬a = k' := fun he => h (he.symm.trans ha)
      rw [if_neg (by simp [ha])]
      rw [ih]
      simp [dget?, hne]
    · rw [if_pos (by simp [ha])]
      have ih' : dget? (List.filter (fun p => !decide (p.1 = k)) rest) k' =
          dget? rest k' := by simpa using ih
      simp [dget?, ih']

/-- The file system of scenario S6: only the configuration file exists. -/
def fsS6 : FSm := [("config.json", JValue.obj [("old", JValue.null)])]

/-- C2 counterexample: the source computes the backup path with
`Path.with_suffix('.bak')`, which replaces the final extension instead of
appending.  Saving over an existing `config.json` leaves the backup at
`config.bak`; nothing is ever placed at `config.json.bak` as the claim
states. -/
theorem c2_counterexample :
    dget? (save_configuration "config.json" [("new", JValue.null)]
        WriteOutcome.ok fsS6).2 "config.json.bak" = none ∧
      dget? (save_configuration "config.json" [("new", JValue.null)]
        WriteOutcome.ok fsS6).2 "config.bak" =
        some (JValue.obj [("old", JValue.null)]) :=
  ⟨rfl, rfl⟩

/-- C2 amended: with the backup at `with_suffix('.bak')` (extension replaced,
not appended), the discipline holds whenever the target exists and its own
extension is not already `.bak`: a failed write reports the error and leaves
the pre-call contents at the target, and a successful write leaves the new
document at the target and the old contents at the backup path. -/
theorem c2_amended_save (config_path : String) (doc : JObj) (fs : FSm)
    (c : JValue) (lo : Option JValue)
    (hexists : dget? fs config_path = some c)
    (hbak : ¬withSuffix config_path ".bak" = config_path) :
    (save_configuration config_path doc (WriteOutcome.fail lo) fs).1 = false ∧
      dget? (save_configuration config_path doc (WriteOutcome.fail lo) fs).2
        config_path = some c ∧
      dget? (save_configuration config_path doc WriteOutcome.ok fs).2
        (withSuffix config_path ".bak") = some c ∧
      dget? (save_configuration config_path doc WriteOutcome.ok fs).2
        config_path = some (JValue.obj doc) := by
  have hs : (dget? fs config_path).isSome := by rw [hexists]; rfl
  have hren : renameFile fs config_path (withSuffix config_path ".bak") =
      dinsert (derase fs config_path) (withSuffix config_path ".bak") c := by
    simp [renameFile, hexists]
  have hbakval :
      dget? (dinsert (derase fs config_path) (withSuffix config_path ".bak") c)
        (withSuffix config_path ".bak") = some c := dget?_dinsert_self _ _ _
  refine ⟨?_, ?_, ?_, ?_⟩
  · simp [save_configuration]
  · simp only [save_configuration, hs, if_true, hren]
    have h2 : ∀ fs2 : FSm, dget? fs2 (withSuffix config_path ".bak") = some c →
        dget? (if (dget? fs2 (withSuffix config_path ".bak")).isSome then
            renameFile fs2 (withSuffix config_path ".bak") config_path
          else fs2) config_path = some c := by
      intro fs2 hfs2
      have : (dget? fs2 (withSuffix config_path ".bak")).isSome := by rw [hfs2]; rfl
      simp only [this, if_true, renameFile, hfs2]
      exact dget?_dinsert_self _ _ _
    cases lo with
    | none =>
      apply h2
      rw [dget?_derase_ne _ _ _ hbak]
      exact hbakval
    | some cpart =>
      apply h2
      rw [dget?_dinsert_ne _ _ _ _ hbak]
      exact hbakval
  · simp only [save_configuration, hs, if_true, hren]
    rw [dget?_dinsert_ne _ _ _ _ hbak]
    exact hbakval
  · simp only [save_configuration, hs, if_true, hren]
    exact dget?_dinsert_self _ _ _

/-- Witness for the amended C2 on scenario S6's file system. -/
theorem c2_amended_witness :
    (save_configuration "config.json" [("new", JValue.null)]
        (WriteOutcome.fail none) fsS6).1 = false ∧
      dget? (save_configuration "config.json" [("new", JValue.null)]
        (WriteOutcome.fail none) fsS6).2 "config.json" =
        some (JValue.obj [("old", JValue.null)]) ∧
      dget? (save_configuration "config.json" [("new", JValue.null)]
        WriteOutcome.ok fsS6).2 (withSuffix "config.json" ".bak") =
        some (JValue.obj [("old", JValue.null)]) ∧
      dget? (save_configuration "config.json" [("new", JValue.null)]
        WriteOutcome.ok fsS6).2 "config.json" =
        some (JValue.obj [("new", JValue.null)]) :=
  c2_amended_save "config.json" [("new", JValue.null)] fsS6
    (JValue.obj [("old", JValue.null)]) none rfl (by decide)

/-! ### Downstream registry and composer state
(src/downstream_controller.py, src/composer.py, src/api.py)

Sessions and gateway objects carry no data any claim depends on, so the
registry keeps only its three indices (with sessions elided) and the
composer's `gateway_map` keeps only its keys; the mounted routes of the ASGI
sub-application are the list of mount paths. -/

/-- `DownstreamController`'s state: `_servers_map` keys, `_tools_map` as
tool control name → owning server control name, `_all_servers_tools` as
(server control name, tool control names), and the `_initialized` flag. -/
structure Registry where
  servers_map : List String
  tools_map : List (String × String)
  all_servers_tools : List (String × List String)
  initialized : Bool
  deriving Repr, DecidableEq

/-- `DownstreamController.check_server_dependencies`: names of kits whose
`assigned_servers` contains the server. -/
def check_server_dependencies (server_name : String)
    (server_kits_map : List (String × ServerKit)) : List String :=
  (server_kits_map.filter (fun p => p.2.is_server_assigned server_name)).map Prod.fst

/-- `a-b` has `a` as a dash-joined first component: character-level
`str.startswith` used by `remove_mcp_server`. -/
def charsStart : List Char → List Char → Bool
  | [], _ => true
  | _ :: _, [] => false
  | p :: ps, c :: cs => p = c && charsStart ps cs

/-- Python `s.startswith(pre)`. -/
def strStartsWith (s pre : String) : Bool := charsStart pre.toList s.toList

/-- Python `x in xs` for a decoded JSON array and a string. -/
def jIsStr (v : JValue) (s : String) : Bool :=
  match v with
  | JValue.str t => t = s
  | _ => false

def jlistContainsStr (xs : List JValue) (s : String) : Bool :=
  xs.any (fun v => jIsStr v s)

/-- Python `xs.remove(s)` on a decoded JSON array: first matching element. -/
def jlistRemoveStr : List JValue → String → List JValue
  | [], _ => []
  | x :: rest, s => if jIsStr x s then rest else x :: jlistRemoveStr rest s

/-- First per-kit step of `ConfigurationManager.remove_mcp_server`:
`if "assigned_servers" in kit_config and server_name in kit_config["assigned_servers"]:
kit_config["assigned_servers"].remove(server_name)`. -/
def rmAssigned (server_name : String) (fields : JObj) : JObj :=
  match dget? fields "assigned_servers" with
  | some (JValue.arr xs) =>
    if jlistContainsStr xs server_name then
      dinsert fields "assigned_servers" (JValue.arr (jlistRemoveStr xs server_name))
    else fields
  | _ => fields

/-- Second step: `if "servers_enabled" in kit_config and server_name in
kit_config["servers_enabled"]: del kit_config["servers_enabled"][server_name]`. -/
def rmServersEnabled (server_name : String) (fields : JObj) : JObj :=
  match dget? fields "servers_enabled" with
  | some (JValue.obj se) =>
    if (dget? se server_name).isSome then
      dinsert fields "servers_enabled" (JValue.obj (derase se server_name))
    else fields
  | _ => fields

/-- Third step: delete every `tools_enabled` key starting with
`"{server_name}-"`. -/
def rmToolsEnabled (server_name : String) (fields : JObj) : JObj :=
  match dget? fields "tools_enabled" with
  | some (JValue.obj te) =>
    dinsert fields "tools_enabled"
      (JValue.obj (te.filter (fun p => !strStartsWith p.1 (server_name ++ "-"))))
  | _ => fields

/-- The per-kit body of `ConfigurationManager.remove_mcp_server`: drop the
server from `assigned_servers`, delete its `servers_enabled` entry, and delete
every `tools_enabled` key with the `"{server}-"` first component.  Fields of
unexpected JSON shape are left untouched (the configuration file is written
by the manager itself, so those shapes do not arise). -/
def removeServerFromKitCfg (server_name : String) (kit_config : JValue) : JValue :=
  match kit_config with
  | JValue.obj fields =>
    JValue.obj (rmToolsEnabled server_name
      (rmServersEnabled server_name (rmAssigned server_name fields)))
  | _ => kit_config

/-- A raised Python exception, as the HTTP layer distinguishes them:
`ValueError` maps to 404 and anything else to 500. -/
inductive PyErr : Type
  | valueError : PyErr
  | typeError : PyErr
  deriving Repr, DecidableEq

/-- Document-level body of `ConfigurationManager.remove_mcp_server`: reject
an unknown server (`ValueError`), delete it from `mcpServers`, and prune it
from every kit assignment.  The manager itself writes `mcpServers` and
`serverKitAssignments` as objects; any other shape would crash the Python
subscript operations, modelled as `typeError`. -/
def remove_mcp_server_doc (server_name : String) (data : JObj) : Except PyErr JObj :=
  match dget? data "mcpServers" with
  | some (JValue.obj servers) =>
    if (dget? servers server_name).isSome then
      match dget? (dinsert data "mcpServers" (JValue.obj (derase servers server_name)))
          "serverKitAssignments" with
      | some (JValue.obj kitCfgs) =>
        Except.ok
          (dinsert (dinsert data "mcpServers" (JValue.obj (derase servers server_name)))
            "serverKitAssignments"
            (JValue.obj (kitCfgs.map (fun p => (p.1, removeServerFromKitCfg server_name p.2)))))
      | _ => Except.error PyErr.typeError
    else Except.error PyErr.valueError
  | _ => Except.error PyErr.typeError

/-- `ConfigurationManager.remove_mcp_server`: load, prune, save.  The
returned `Bool` is the save's success flag. -/
def remove_mcp_server (config_path : String) (server_name : String)
    (w : WriteOutcome) (fs : FSm) : Except PyErr (Bool × FSm) :=
  match load_configuration config_path fs with
  | none => Except.error PyErr.typeError
  | some data =>
    match remove_mcp_server_doc server_name data with
    | Except.error e => Except.error e
    | Except.ok data2 => Except.ok (save_configuration config_path data2 w fs)

/-- JSON serialization of a kit's assignment entry, as written by
`ConfigurationManager.update_server_kit_assignments`. -/
def kitAssignmentJson (k : ServerKit) : JValue :=
  JValue.obj
    [("assigned_servers", JValue.arr (k.assigned_servers.map JValue.str)),
     ("servers_enabled", JValue.obj (k.servers_enabled.map (fun p => (p.1, JValue.bool p.2)))),
     ("tools_enabled", JValue.obj (k.tools_enabled.map (fun p => (p.1, JValue.bool p.2)))),
     ("servers_tools_hierarchy_map",
       JValue.obj (k.servers_tools_hierarchy_map.map
         (fun p => (p.1, JValue.arr (p.2.map JValue.str))))),
     ("tools_servers_map",
       JValue.obj (k.tools_servers_map.map (fun p => (p.1, JValue.str p.2))))]

/-- `ConfigurationManager.update_server_kit_assignments`: load, upsert the
kit's entry, save. -/
def update_server_kit_assignments (config_path : String) (server_kit : ServerKit)
    (w : WriteOutcome) (fs : FSm) : Except PyErr (Bool × FSm) :=
  match load_configuration config_path fs with
  | none => Except.error PyErr.typeError
  | some data =>
    match dget? data "serverKitAssignments" with
    | some (JValue.obj kitCfgs) =>
      let data' := dinsert data "serverKitAssignments"
        (JValue.obj (dinsert kitCfgs server_kit.name (kitAssignmentJson server_kit)))
      Except.ok (save_configuration config_path data' w fs)
    | _ => Except.error PyErr.typeError

/-- The composer-level state the admin endpoints act on. -/
structure ComposerState where
  kits : List (String × ServerKit)
  registry : Registry
  gateways : List String
  routes : List String
  fs : FSm
  config_path : String

/-- Per-server body of `Composer.create_server_kit`'s population loop. -/
def addServerTools (enabled : Bool) (k : ServerKit) (entry : String × List String) :
    ServerKit :=
  let server := entry.1
  let k1 :=
    { k with
      servers_enabled := dinsert k.servers_enabled server enabled
      servers_tools_hierarchy_map := dinsert k.servers_tools_hierarchy_map server [] }
  entry.2.foldl
    (fun acc tool =>
      { acc with
        tools_enabled := dinsert acc.tools_enabled tool enabled
        servers_tools_hierarchy_map :=
          dinsert acc.servers_tools_hierarchy_map server
            ((dget? acc.servers_tools_hierarchy_map server).getD [] ++ [tool])
        tools_servers_map := dinsert acc.tools_servers_map tool server })
    k1

/-- The kit `Composer.create_server_kit` builds from the whole registry. -/
def buildKitFromRegistry (name : String) (enabled : Bool)
    (all_servers_tools : List (String × List String)) : ServerKit :=
  all_servers_tools.foldl (addServerTools enabled) (ServerKit.new_server_kit name)

/-- `Composer.create_server_kit`: fails (`ValueError`, modelled `none`) only
when the downstream controller is not initialized; otherwise stores the
freshly built kit under its name, silently replacing any existing entry. -/
def create_server_kit (st : ComposerState) (name : String) (enabled : Bool) :
    Option (ServerKit × ComposerState) :=
  if !st.registry.initialized then none
  else
    let kit := buildKitFromRegistry name enabled st.registry.all_servers_tools
    some (kit, { st with kits := dinsert st.kits name kit })

/-- Outcome of an admin HTTP endpoint: success, or `HTTPException(code)`
(unhandled exceptions surface as 500). -/
inductive HResult : Type
  | success : HResult
  | failure : Nat → HResult
  deriving Repr, DecidableEq

/-- `DELETE /api/v1/mcp/{server_name}` (src/api.py `delete_mcp_server`):
dependency check (400), `DownstreamController.remove_server_dynamically`
(`ValueError` → 404), then `ConfigurationManager.remove_mcp_server`
(`ValueError` → 404, other exceptions and save failures → 500).  The
returned state is the state after the call, successful or not. -/
def delete_mcp_server (st : ComposerState) (server_name : String)
    (w : WriteOutcome) : HResult × ComposerState :=
  let deps := check_server_dependencies server_name st.kits
  if !deps.isEmpty then (HResult.failure 400, st)
  else if !st.registry.servers_map.contains server_name then (HResult.failure 404, st)
  else
    let reg' :=
      { st.registry with
        servers_map := st.registry.servers_map.filter (fun n => n ≠ server_name)
        tools_map := st.registry.tools_map.filter (fun p => p.2 ≠ server_name)
        all_servers_tools :=
          st.registry.all_servers_tools.filter (fun p => p.1 ≠ server_name) }
    let st1 := { st with registry := reg' }
    match remove_mcp_server st.config_path server_name w st.fs with
    | Except.error PyErr.valueError => (HResult.failure 404, st1)
    | Except.error PyErr.typeError => (HResult.failure 500, st1)
    | Except.ok (saved, fs') =>
      if saved then (HResult.success, { st1 with fs := fs' })
      else (HResult.failure 500, { st1 with fs := fs' })

/-- `Composer.remove_gateway`: refuses when exactly one gateway exists
(`Cannot remove the last gateway`), then when the name is unknown; otherwise
unmounts the route at path `"/{name}"` and drops the gateway from the map.
`none` models the raised `ValueError`. -/
def remove_gateway (st : ComposerState) (name : String) : Option ComposerState :=
  if st.gateways.length = 1 then none
  else if !st.gateways.contains name then none
  else
    some
      { st with
        gateways := st.gateways.filter (fun n => n ≠ name)
        routes := st.routes.filter (fun r => r ≠ "/" ++ name) }

/-- First entry of `_all_servers_tools` for the given server control name
(the `for ... if ... break` loop in `assign_server_to_kit`). -/
def lookupServerTools : List (String × List String) → String → Option (List String)
  | [], _ => none
  | (sv, tools) :: rest, s => if sv = s then some tools else lookupServerTools rest s

/-- Tool population performed by the assign endpoint after `kit.assign`:
reset the server's hierarchy entry, then register every tool of the server
with `tools_enabled := auto_enable`. -/
def populateKitTools (k : ServerKit) (server_name : String) (tools : List String)
    (auto_enable : Bool) : ServerKit :=
  let k0 :=
    { k with
      servers_tools_hierarchy_map := dinsert k.servers_tools_hierarchy_map server_name [] }
  tools.foldl
    (fun acc tool =>
      { acc with
        tools_enabled := dinsert acc.tools_enabled tool auto_enable
        tools_servers_map := dinsert acc.tools_servers_map tool server_name
        servers_tools_hierarchy_map :=
          dinsert acc.servers_tools_hierarchy_map server_name
            ((dget? acc.servers_tools_hierarchy_map server_name).getD [] ++ [tool]) })
    k0

/-- `POST /api/v1/kits/{kit_name}/mcp/{server_name}/assign`
(src/api.py `assign_server_to_kit`): unknown kit or server → 404, already
assigned → 400, otherwise assign, populate the server's tools, persist. -/
def assign_server_to_kit (st : ComposerState) (kit_name server_name : String)
    (auto_enable : Bool) (w : WriteOutcome) : HResult × ComposerState :=
  match dget? st.kits kit_name with
  | none => (HResult.failure 404, st)
  | some server_kit =>
    if !st.registry.servers_map.contains server_name then (HResult.failure 404, st)
    else if server_kit.is_server_assigned server_name then (HResult.failure 400, st)
    else
      let k1 := server_kit.assign_mcp_server server_name
      let k2 :=
        match lookupServerTools st.registry.all_servers_tools server_name with
        | none => k1
        | some tools => populateKitTools k1 server_name tools auto_enable
      let st1 := { st with kits := dinsert st.kits kit_name k2 }
      match update_server_kit_assignments st.config_path k2 w st1.fs with
      | Except.error _ => (HResult.failure 500, st1)
      | Except.ok (saved, fs') =>
        if saved then (HResult.success, { st1 with fs := fs' })
        else (HResult.failure 500, { st1 with fs := fs' })

/-- `POST /api/v1/gateways` (src/api.py `add_gateway`): create (or replace)
the kit named in the request, overwrite its `servers_enabled` and
`tools_enabled` from the request body, and only then call
`Composer.add_gateway`, whose duplicate check raises after the kit map has
already been mutated (the uncaught `ValueError` surfaces as a 500). -/
def add_gateway_endpoint (st : ComposerState) (name : String)
    (req_servers_enabled req_tools_enabled : List (String × Bool)) :
    HResult × ComposerState :=
  match create_server_kit st name true with
  | none => (HResult.failure 500, st)
  | some (kit, st1) =>
    let kit2 :=
      { kit with servers_enabled := req_servers_enabled, tools_enabled := req_tools_enabled }
    let st2 := { st1 with kits := dinsert st1.kits name kit2 }
    if st2.gateways.contains name then (HResult.failure 500, st2)
    else
      (HResult.success,
        { st2 with
          gateways := st2.gateways ++ [name]
          routes := st2.routes ++ ["/" ++ name] })

/-! ### Claim C5 — remove_gateway success condition -/

/-- A registry with servers `A` (tool `A-t1`) and `B` (tool `B-t1`). -/
def regAB : Registry :=
  { servers_map := ["A", "B"]
    tools_map := [("A-t1", "A"), ("B-t1", "B")]
    all_servers_tools := [("A", ["A-t1"]), ("B", ["B-t1"])]
    initialized := true }

/-- Two gateways `a`, `b` mounted, no kits. -/
def stC5 : ComposerState :=
  { kits := []
    registry := regAB
    gateways := ["a", "b"]
    routes := ["/a", "/b"]
    fs := []
    config_path := "config.json" }

/-- C5 counterexample: with two gateways present, `remove_gateway` of a name
not in the map still fails, so "succeeds iff at least two gateways exist" is
false. -/
theorem c5_counterexample :
    2 ≤ stC5.gateways.length ∧ remove_gateway stC5 "c" = none :=
  ⟨by decide, rfl⟩

/-- C5 amended: `remove_gateway(name)` succeeds iff at least two gateways
exist **and** `name` is one of them (with exactly one gateway the
last-gateway error fires even before the existence check); on success it
drops the gateway from the map and unmounts the route at `"/{name}"`,
leaving everything else unchanged. -/
theorem c5_amended_remove_gateway (st : ComposerState) (name : String) :
    ((remove_gateway st name).isSome ↔
      2 ≤ st.gateways.length ∧ name ∈ st.gateways) ∧
    ∀ st', remove_gateway st name = some st' →
      st'.gateways = st.gateways.filter (fun n => n ≠ name) ∧
      st'.routes = st.routes.filter (fun r => r ≠ "/" ++ name) ∧
      st'.kits = st.kits ∧ st'.registry = st.registry ∧ st'.fs = st.fs := by
  constructor
  · constructor
    · intro h
      by_cases h1 : st.gateways.length = 1
      · have hz : remove_gateway st name = none := by simp [remove_gateway, h1]
        rw [hz] at h
        simp at h
      · by_cases h2 : name ∈ st.gateways
        · have hpos : 0 < st.gateways.length :=
            List.length_pos.mpr (List.ne_nil_of_mem h2)
          exact ⟨by omega, h2⟩
        · have hz : remove_gateway st name = none := by
            simp [remove_gateway, h1, h2]
          rw [hz] at h
          simp at h
    · rintro ⟨hlen, hmem⟩
      have h1 : ¬st.gateways.length = 1 := by omega
      simp [remove_gateway, h1, hmem]
  · intro st' h
    by_cases h1 : st.gateways.length = 1
    · have hz : remove_gateway st name = none := by simp [remove_gateway, h1]
      rw [hz] at h
      exact absurd h (by simp)
    · by_cases h2 : name ∈ st.gateways
      · have hcond : ¬((!st.gateways.contains name) = true) := by simp [h2]
        unfold remove_gateway at h
        rw [if_neg h1, if_neg hcond, Option.some.injEq] at h
        subst h
        exact ⟨rfl, rfl, rfl, rfl, rfl⟩
      · have hz : remove_gateway st name = none := by
          simp [remove_gateway, h1, h2]
        rw [hz] at h
        exact absurd h (by simp)

/-- Witness for the amended C5: removing `a` out of two gateways succeeds. -/
theorem c5_witness : (remove_gateway stC5 "a").isSome :=
  (c5_amended_remove_gateway stC5 "a").1.mpr ⟨by decide, by decide⟩

/-! ### Claim C6 — delete_mcp_server refuses while a kit depends on it -/

/-- C6: when some kit has the server in `assigned_servers`, the delete
endpoint answers 400 and the state — kits, registry, and configuration
file — is exactly the pre-call state. -/
theorem c6_delete_with_dependency (st : ComposerState) (s : String)
    (w : WriteOutcome)
    (hdep : st.kits.any (fun p => p.2.is_server_assigned s) = true) :
    delete_mcp_server st s w = (HResult.failure 400, st) := by
  have hne : (check_server_dependencies s st.kits).isEmpty = false := by
    rcases List.any_eq_true.mp hdep with ⟨p, hpmem, hp⟩
    have hmem : p.1 ∈ check_server_dependencies s st.kits :=
      List.mem_map_of_mem Prod.fst (List.mem_filter.2 ⟨hpmem, hp⟩)
    rcases hcheck : (check_server_dependencies s st.kits) with _ | ⟨q, rest⟩
    · rw [hcheck] at hmem; simp at hmem
    · rfl
  simp [delete_mcp_server, hne]

/-- The S2 kit mounted in a composer whose registry has `A` and `B`, with a
configuration file naming both. -/
def stC6 : ComposerState :=
  { kits := [("K", kitS2)]
    registry := regAB
    gateways := ["K"]
    routes := ["/K"]
    fs := [("config.json",
      JValue.obj
        [("mcpServers", JValue.obj [("A", JValue.obj []), ("B", JValue.obj [])]),
         ("serverKitAssignments", JValue.obj [])])]
    config_path := "config.json" }

/-- Witness for C6: `A` is assigned to `K`, so deleting `A` is refused with
400 and nothing changes. -/
theorem c6_witness :
    delete_mcp_server stC6 "A" WriteOutcome.ok = (HResult.failure 400, stC6) :=
  c6_delete_with_dependency stC6 "A" WriteOutcome.ok (by decide)

/-! ### Claim C9 — assign endpoint failure modes -/

/-- C9: with the kit present, assigning a server that is not in the
registry's available servers answers 404, and assigning one already in the
kit's `assigned_servers` answers 400; in both cases the state is exactly the
pre-call state. -/
theorem c9_assign_failures (st : ComposerState) (kit_name server_name : String)
    (auto : Bool) (w : WriteOutcome) (kit : ServerKit)
    (hkit : dget? st.kits kit_name = some kit) :
    (st.registry.servers_map.contains server_name = false →
      assign_server_to_kit st kit_name server_name auto w = (HResult.failure 404, st)) ∧
    (st.registry.servers_map.contains server_name = true →
      kit.is_server_assigned server_name = true →
      assign_server_to_kit st kit_name server_name auto w = (HResult.failure 400, st)) := by
  constructor
  · intro h
    have hnm : ¬server_name ∈ st.registry.servers_map := by simpa using h
    simp [assign_server_to_kit, hkit, hnm]
  · intro h hassigned
    have hm : server_name ∈ st.registry.servers_map := by simpa using h
    have ha : server_name ∈ kit.assigned_servers := by
      simpa [ServerKit.is_server_assigned] using hassigned
    simp [assign_server_to_kit, ServerKit.is_server_assigned, hkit, hm, ha]

/-- Witness for C9 on the C6 state: server `Z` is unknown (404) and server
`A` is already assigned to `K` (400). -/
theorem c9_witness :
    assign_server_to_kit stC6 "K" "Z" true WriteOutcome.ok = (HResult.failure 404, stC6) ∧
      assign_server_to_kit stC6 "K" "A" true WriteOutcome.ok = (HResult.failure 400, stC6) :=
  ⟨(c9_assign_failures stC6 "K" "Z" true WriteOutcome.ok kitS2 rfl).1 (by decide),
   (c9_assign_failures stC6 "K" "A" true WriteOutcome.ok kitS2 rfl).2 (by decide) (by decide)⟩

/-! ### Claim C10 — create_server_kit silently replaces; mutation precedes the
duplicate-gateway rejection -/

/-- C10: with the downstream controller initialized, `create_server_kit`
succeeds for every name (no duplicate check) and the gateway endpoint, when
the gateway already exists, still replaces the kit in `server_kits_map` —
with the request's enablement maps — before failing. -/
theorem c10_create_kit_overwrites (st : ComposerState) (name : String)
    (se te : List (String × Bool))
    (hinit : st.registry.initialized = true)
    (hgw : st.gateways.contains name = true) :
    (create_server_kit st name true).isSome = true ∧
      (add_gateway_endpoint st name se te).1 = HResult.failure 500 ∧
      dget? (add_gateway_endpoint st name se te).2.kits name =
        some { buildKitFromRegistry name true st.registry.all_servers_tools with
               servers_enabled := se, tools_enabled := te } := by
  have hgm : name ∈ st.gateways := by simpa using hgw
  refine ⟨by simp [create_server_kit, hinit], ?_, ?_⟩
  · simp [add_gateway_endpoint, create_server_kit, hinit, hgm]
  · simp [add_gateway_endpoint, create_server_kit, hinit, hgm, dget?_dinsert_self]

/-- Witness for C10: gateway `K` already exists, yet the kit `K` is rebuilt
and overwritten with the request's maps while the request fails. -/
theorem c10_witness :
    (create_server_kit stC6 "K" true).isSome = true ∧
      (add_gateway_endpoint stC6 "K" [("A", false)] [("A-t1", false)]).1 =
        HResult.failure 500 ∧
      dget? (add_gateway_endpoint stC6 "K" [("A", false)] [("A-t1", false)]).2.kits "K" =
        some { buildKitFromRegistry "K" true stC6.registry.all_servers_tools with
               servers_enabled := [("A", false)], tools_enabled := [("A-t1", false)] } :=
  c10_create_kit_overwrites stC6 "K" [("A", false)] [("A-t1", false)] rfl (by decide)

/-! ### Claim C3 — state after a successful delete_mcp_server -/

/-- A kit created from the full registry (`create_server_kit` semantics):
`assigned_servers` stays empty while every discovered server and tool gets an
enablement entry. -/
def kitFull : ServerKit := buildKitFromRegistry "K" true regAB.all_servers_tools

/-- The C3 scenario: a legacy kit built from the full registry (empty
`assigned_servers`), both servers in the registry and the config file. -/
def stC3 : ComposerState :=
  { kits := [("K", kitFull)]
    registry := regAB
    gateways := ["K"]
    routes := ["/K"]
    fs := [("config.json",
      JValue.obj
        [("mcpServers", JValue.obj [("A", JValue.obj []), ("B", JValue.obj [])]),
         ("serverKitAssignments", JValue.obj [])])]
    config_path := "config.json" }

/-- C3 counterexample: deleting `A` succeeds (the legacy kit has empty
`assigned_servers`, so the dependency check passes), yet the kit state
observable after the call still has a `servers_enabled` key `A` and a
`tools_enabled` key with the `A-` first component — the delete path rewrites
only the configuration file, never the in-memory kits. -/
theorem c3_counterexample :
    (delete_mcp_server stC3 "A" WriteOutcome.ok).1 = HResult.success ∧
      ((delete_mcp_server stC3 "A" WriteOutcome.ok).2.kits.any
        (fun p => dmem p.2.servers_enabled "A")) = true ∧
      ((delete_mcp_server stC3 "A" WriteOutcome.ok).2.kits.any
        (fun p => p.2.tools_enabled.any (fun q => strStartsWith q.1 "A-"))) = true :=
  ⟨rfl, rfl, rfl⟩

/-! Helper predicates for the amended C3, each reading one field of a
persisted kit assignment. -/

def jcountStr (xs : List JValue) (s : String) : Nat :=
  (xs.filter (fun v => jIsStr v s)).length

/-- Well-formedness: the persisted `assigned_servers` array mentions `s` at
most once (a Python kit's `assigned_servers` list has no duplicates). -/
def assignedOnceB (s : String) (f : JObj) : Bool :=
  match dget? f "assigned_servers" with
  | some (JValue.arr xs) => jcountStr xs s ≤ 1
  | _ => true

def assignedCleanB (s : String) (f : JObj) : Bool :=
  match dget? f "assigned_servers" with
  | some (JValue.arr xs) => !jlistContainsStr xs s
  | _ => true

def serversEnabledCleanB (s : String) (f : JObj) : Bool :=
  match dget? f "servers_enabled" with
  | some (JValue.obj se) => !(dget? se s).isSome
  | _ => true

def toolsEnabledCleanB (s : String) (f : JObj) : Bool :=
  match dget? f "tools_enabled" with
  | some (JValue.obj te) => te.all (fun p => !strStartsWith p.1 (s ++ "-"))
  | _ => true

/-- A persisted kit assignment free of server `s`, as the claim demands. -/
def kitCfgNoServer (s : String) (kc : JValue) : Bool :=
  match kc with
  | JValue.obj fields =>
    assignedCleanB s fields && serversEnabledCleanB s fields &&
      toolsEnabledCleanB s fields
  | _ => true

def kitCfgAssignedOnce (s : String) (kc : JValue) : Bool :=
  match kc with
  | JValue.obj fields => assignedOnceB s fields
  | _ => true

/-- Every kit assignment of a loaded document mentions `s` at most once in
`assigned_servers`. -/
def docAssignedOnce (s : String) (data : JObj) : Bool :=
  match dget? data "serverKitAssignments" with
  | some (JValue.obj kitCfgs) => kitCfgs.all (fun p => kitCfgAssignedOnce s p.2)
  | _ => true

/-- Well-formedness of the configuration the manager would load: every
persisted kit assignment mentions `s` at most once in `assigned_servers`
(a Python kit's `assigned_servers` list has no duplicates). -/
def loadedAssignedOnce (s config_path : String) (fs : FSm) : Bool :=
  match load_configuration config_path fs with
  | some data => docAssignedOnce s data
  | none => true

/-- A document with no `mcpServers` entry for `s` and every kit assignment
free of `s`. -/
def docNoServer (s : String) (doc : JObj) : Bool :=
  (match dget? doc "mcpServers" with
   | some (JValue.obj servers) => !(dget? servers s).isSome
   | _ => false) &&
  (match dget? doc "serverKitAssignments" with
   | some (JValue.obj kitCfgs) => kitCfgs.all (fun p => kitCfgNoServer s p.2)
   | _ => false)

/-- The claim's guarantee, restated of the configuration file: the stored
document has no `mcpServers` entry for `s`, and every kit assignment is free
of `s`. -/
def configNoServer (s config_path : String) (fs : FSm) : Bool :=
  match dget? fs config_path with
  | some (JValue.obj doc) => docNoServer s doc
  | _ => false

theorem dget?_derase_self {β : Type} (m : List (String × β)) (k : String) :
    dget? (derase m k) k = none := by
  induction m with
  | nil => rfl
  | cons p rest ih =>
    obtain ⟨a, b⟩ := p
    unfold derase at ih ⊢
    rw [List.filter_cons]
    by_cases ha : a = k
    · rw [if_neg (by simp [ha])]
      exact ih
    · rw [if_pos (by simp [ha])]
      unfold dget?
      rw [if_neg ha]
      exact ih

theorem jcount_zero_not_contains (xs : List JValue) (s : String)
    (h : jcountStr xs s = 0) : jlistContainsStr xs s = false := by
  induction xs with
  | nil => rfl
  | cons x rest ih =>
    by_cases hx : jIsStr x s = true
    · simp [jcountStr, List.filter_cons, hx] at h
    · have hx' : jIsStr x s = false := by simpa using hx
      have hr : jcountStr rest s = 0 := by
        simpa [jcountStr, List.filter_cons, hx'] using h
      have hrec := ih hr
      unfold jlistContainsStr at hrec ⊢
      simp only [List.any_cons, hx', hrec]
      rfl

theorem jremove_not_contains (xs : List JValue) (s : String)
    (h : jcountStr xs s ≤ 1) : jlistContainsStr (jlistRemoveStr xs s) s = false := by
  induction xs with
  | nil => rfl
  | cons x rest ih =>
    by_cases hx : jIsStr x s = true
    · have hc : jcountStr rest s = 0 := by
        have := h
        simp [jcountStr, List.filter_cons, hx] at this
        simpa [jcountStr] using this
      have hrem : jlistRemoveStr (x :: rest) s = rest := by
        simp [jlistRemoveStr, hx]
      rw [hrem]
      exact jcount_zero_not_contains rest s hc
    · have hx' : jIsStr x s = false := by simpa using hx
      have hr : jcountStr rest s ≤ 1 := by
        simpa [jcountStr, List.filter_cons, hx'] using h
      have hrec := ih hr
      have hrem : jlistRemoveStr (x :: rest) s = x :: jlistRemoveStr rest s := by
        simp [jlistRemoveStr, hx']
      rw [hrem]
      unfold jlistContainsStr at hrec ⊢
      simp only [List.any_cons, hx', hrec]
      rfl

theorem all_filter_self {α : Type} (l : List α) (q : α → Bool) :
    (l.filter q).all q = true := by
  rw [List.all_eq_true]
  intro a ha
  exact (List.mem_filter.mp ha).2

theorem dget?_rmAssigned_ne (s : String) (f : JObj) (key : String)
    (h : ¬key = "assigned_servers") :
    dget? (rmAssigned s f) key = dget? f key := by
  unfold rmAssigned
  cases hv : dget? f "assigned_servers" with
  | none => rfl
  | some v =>
    cases v with
    | arr xs =>
      show dget? (if jlistContainsStr xs s = true then
          dinsert f "assigned_servers" (JValue.arr (jlistRemoveStr xs s)) else f) key =
        dget? f key
      by_cases hc : jlistContainsStr xs s = true
      · rw [if_pos hc]
        exact dget?_dinsert_ne _ _ _ _ h
      · rw [if_neg hc]
    | null => rfl
    | bool b => rfl
    | num n => rfl
    | str t => rfl
    | obj o => rfl

theorem dget?_rmServersEnabled_ne (s : String) (f : JObj) (key : String)
    (h : ¬key = "servers_enabled") :
    dget? (rmServersEnabled s f) key = dget? f key := by
  unfold rmServersEnabled
  cases hv : dget? f "servers_enabled" with
  | none => rfl
  | some v =>
    cases v with
    | obj se =>
      show dget? (if (dget? se s).isSome = true then
          dinsert f "servers_enabled" (JValue.obj (derase se s)) else f) key =
        dget? f key
      by_cases hc : (dget? se s).isSome = true
      · rw [if_pos hc]
        exact dget?_dinsert_ne _ _ _ _ h
      · rw [if_neg hc]
    | null => rfl
    | bool b => rfl
    | num n => rfl
    | str t => rfl
    | arr xs => rfl

theorem dget?_rmToolsEnabled_ne (s : String) (f : JObj) (key : String)
    (h : ¬key = "tools_enabled") :
    dget? (rmToolsEnabled s f) key = dget? f key := by
  unfold rmToolsEnabled
  cases hv : dget? f "tools_enabled" with
  | none => rfl
  | some v =>
    cases v with
    | obj te => exact dget?_dinsert_ne _ _ _ _ h
    | null => rfl
    | bool b => rfl
    | num n => rfl
    | str t => rfl
    | arr xs => rfl

theorem rmAssigned_clean (s : String) (f : JObj) (h : assignedOnceB s f = true) :
    assignedCleanB s (rmAssigned s f) = true := by
  unfold assignedOnceB at h
  cases hv : dget? f "assigned_servers" with
  | none =>
    have hf : rmAssigned s f = f := by unfold rmAssigned; rw [hv]
    unfold assignedCleanB
    rw [hf, hv]
  | some v =>
    rw [hv] at h
    cases v with
    | arr xs =>
      have hle : jcountStr xs s ≤ 1 := by simpa using h
      by_cases hc : jlistContainsStr xs s = true
      · have hf : rmAssigned s f =
            dinsert f "assigned_servers" (JValue.arr (jlistRemoveStr xs s)) := by
          unfold rmAssigned
          rw [hv]
          exact if_pos hc
        unfold assignedCleanB
        rw [hf, dget?_dinsert_self]
        show (!jlistContainsStr (jlistRemoveStr xs s) s) = true
        rw [jremove_not_contains xs s hle]
        rfl
      · have hf : rmAssigned s f = f := by
          unfold rmAssigned
          rw [hv]
          exact if_neg hc
        have hc' : jlistContainsStr xs s = false := by simpa using hc
        unfold assignedCleanB
        rw [hf, hv]
        show (!jlistContainsStr xs s) = true
        rw [hc']
        rfl
    | null =>
      have hf : rmAssigned s f = f := by unfold rmAssigned; rw [hv]
      unfold assignedCleanB
      rw [hf, hv]
    | bool b =>
      have hf : rmAssigned s f = f := by unfold rmAssigned; rw [hv]
      unfold assignedCleanB
      rw [hf, hv]
    | num n =>
      have hf : rmAssigned s f = f := by unfold rmAssigned; rw [hv]
      unfold assignedCleanB
      rw [hf, hv]
    | str t =>
      have hf : rmAssigned s f = f := by unfold rmAssigned; rw [hv]
      unfold assignedCleanB
      rw [hf, hv]
    | obj o =>
      have hf : rmAssigned s f = f := by unfold rmAssigned; rw [hv]
      unfold assignedCleanB
      rw [hf, hv]

theorem rmServersEnabled_clean (s : String) (f : JObj) :
    serversEnabledCleanB s (rmServersEnabled s f) = true := by
  cases hv : dget? f "servers_enabled" with
  | none =>
    have hf : rmServersEnabled s f = f := by unfold rmServersEnabled; rw [hv]
    unfold serversEnabledCleanB
    rw [hf, hv]
  | some v =>
    cases v with
    | obj se =>
      by_cases hc : (dget? se s).isSome = true
      · have hf : rmServersEnabled s f =
            dinsert f "servers_enabled" (JValue.obj (derase se s)) := by
          unfold rmServersEnabled
          rw [hv]
          exact if_pos hc
        unfold serversEnabledCleanB
        rw [hf, dget?_dinsert_self]
        show (!(dget? (derase se s) s).isSome) = true
        rw [dget?_derase_self]
        rfl
      · have hf : rmServersEnabled s f = f := by
          unfold rmServersEnabled
          rw [hv]
          exact if_neg hc
        have hc' : (dget? se s).isSome = false := by simpa using hc
        unfold serversEnabledCleanB
        rw [hf, hv]
        show (!(dget? se s).isSome) = true
        rw [hc']
        rfl
    | null =>
      have hf : rmServersEnabled s f = f := by unfold rmServersEnabled; rw [hv]
      unfold serversEnabledCleanB
      rw [hf, hv]
    | bool b =>
      have hf : rmServersEnabled s f = f := by unfold rmServersEnabled; rw [hv]
      unfold serversEnabledCleanB
      rw [hf, hv]
    | num n =>
      have hf : rmServersEnabled s f = f := by unfold rmServersEnabled; rw [hv]
      unfold serversEnabledCleanB
      rw [hf, hv]
    | str t =>
      have hf : rmServersEnabled s f = f := by unfold rmServersEnabled; rw [hv]
      unfold serversEnabledCleanB
      rw [hf, hv]
    | arr xs =>
      have hf : rmServersEnabled s f = f := by unfold rmServersEnabled; rw [hv]
      unfold serversEnabledCleanB
      rw [hf, hv]

theorem rmToolsEnabled_clean (s : String) (f : JObj) :
    toolsEnabledCleanB s (rmToolsEnabled s f) = true := by
  cases hv : dget? f "tools_enabled" with
  | none =>
    have hf : rmToolsEnabled s f = f := by unfold rmToolsEnabled; rw [hv]
    unfold toolsEnabledCleanB
    rw [hf, hv]
  | some v =>
    cases v with
    | obj te =>
      have hf : rmToolsEnabled s f = dinsert f "tools_enabled"
          (JValue.obj (te.filter (fun p => !strStartsWith p.1 (s ++ "-")))) := by
        unfold rmToolsEnabled
        rw [hv]
      unfold toolsEnabledCleanB
      rw [hf, dget?_dinsert_self]
      show (te.filter (fun p => !strStartsWith p.1 (s ++ "-"))).all
          (fun p => !strStartsWith p.1 (s ++ "-")) = true
      exact all_filter_self _ _
    | null =>
      have hf : rmToolsEnabled s f = f := by unfold rmToolsEnabled; rw [hv]
      unfold toolsEnabledCleanB
      rw [hf, hv]
    | bool b =>
      have hf : rmToolsEnabled s f = f := by unfold rmToolsEnabled; rw [hv]
      unfold toolsEnabledCleanB
      rw [hf, hv]
    | num n =>
      have hf : rmToolsEnabled s f = f := by unfold rmToolsEnabled; rw [hv]
      unfold toolsEnabledCleanB
      rw [hf, hv]
    | str t =>
      have hf : rmToolsEnabled s f = f := by unfold rmToolsEnabled; rw [hv]
      unfold toolsEnabledCleanB
      rw [hf, hv]
    | arr xs =>
      have hf : rmToolsEnabled s f = f := by unfold rmToolsEnabled; rw [hv]
      unfold toolsEnabledCleanB
      rw [hf, hv]

/-- Per-kit correctness of the pruning: a well-formed persisted assignment is
free of `s` after `removeServerFromKitCfg`. -/
theorem kitCfg_clean (s : String) (kc : JValue)
    (hwf : kitCfgAssignedOnce s kc = true) :
    kitCfgNoServer s (removeServerFromKitCfg s kc) = true := by
  cases kc with
  | obj fields =>
    unfold kitCfgAssignedOnce at hwf
    unfold removeServerFromKitCfg kitCfgNoServer
    have h1 : assignedCleanB s (rmAssigned s fields) = true :=
      rmAssigned_clean s fields hwf
    have h2 : assignedCleanB s
        (rmToolsEnabled s (rmServersEnabled s (rmAssigned s fields))) = true := by
      unfold assignedCleanB at h1 ⊢
      rw [dget?_rmToolsEnabled_ne _ _ _ (by decide),
        dget?_rmServersEnabled_ne _ _ _ (by decide)]
      exact h1
    have h3 : serversEnabledCleanB s
        (rmToolsEnabled s (rmServersEnabled s (rmAssigned s fields))) = true := by
      have := rmServersEnabled_clean s (rmAssigned s fields)
      unfold serversEnabledCleanB at this ⊢
      rw [dget?_rmToolsEnabled_ne _ _ _ (by decide)]
      exact this
    have h4 : toolsEnabledCleanB s
        (rmToolsEnabled s (rmServersEnabled s (rmAssigned s fields))) = true :=
      rmToolsEnabled_clean s _
    simp [h2, h3, h4]
  | null => rfl
  | bool b => rfl
  | num n => rfl
  | str t => rfl
  | arr xs => rfl

/-- Document-level correctness of the pruning step: on a well-formed
document it yields a document free of server `s`. -/
theorem remove_mcp_server_doc_clean (s : String) (data data2 : JObj)
    (hwf : docAssignedOnce s data = true)
    (hok : remove_mcp_server_doc s data = Except.ok data2) :
    docNoServer s data2 = true := by
  cases hms : dget? data "mcpServers" with
  | none =>
    have heq : remove_mcp_server_doc s data = Except.error PyErr.typeError := by
      unfold remove_mcp_server_doc
      rw [hms]
    rw [heq] at hok
    exact Except.noConfusion hok
  | some v =>
    cases v with
    | obj servers =>
      by_cases hp : (dget? servers s).isSome = true
      · cases hka : dget? (dinsert data "mcpServers" (JValue.obj (derase servers s)))
            "serverKitAssignments" with
        | none =>
          have heq : remove_mcp_server_doc s data = Except.error PyErr.typeError := by
            unfold remove_mcp_server_doc
            rw [hms]
            show (if (dget? servers s).isSome = true then _ else _) =
              Except.error PyErr.typeError
            rw [if_pos hp, hka]
          rw [heq] at hok
          exact Except.noConfusion hok
        | some v2 =>
          cases v2 with
          | obj kitCfgs =>
            have heq : remove_mcp_server_doc s data = Except.ok
                (dinsert (dinsert data "mcpServers" (JValue.obj (derase servers s)))
                  "serverKitAssignments"
                  (JValue.obj (kitCfgs.map
                    (fun p => (p.1, removeServerFromKitCfg s p.2))))) := by
              unfold remove_mcp_server_doc
              rw [hms]
              show (if (dget? servers s).isSome = true then _ else _) = _
              rw [if_pos hp, hka]
            rw [heq] at hok
            injection hok with hok
            subst hok
            have hka' : dget? data "serverKitAssignments" = some (JValue.obj kitCfgs) := by
              rw [← dget?_dinsert_ne data "mcpServers" "serverKitAssignments"
                (JValue.obj (derase servers s)) (by decide)]
              exact hka
            have hwf2 : kitCfgs.all (fun p => kitCfgAssignedOnce s p.2) = true := by
              have h := hwf
              unfold docAssignedOnce at h
              rw [hka'] at h
              exact h
            unfold docNoServer
            have h1 : dget? (dinsert (dinsert data "mcpServers"
                (JValue.obj (derase servers s))) "serverKitAssignments"
                (JValue.obj (kitCfgs.map (fun p => (p.1, removeServerFromKitCfg s p.2)))))
                "mcpServers" = some (JValue.obj (derase servers s)) := by
              rw [dget?_dinsert_ne _ _ _ _ (by decide), dget?_dinsert_self]
            have h2 : dget? (dinsert (dinsert data "mcpServers"
                (JValue.obj (derase servers s))) "serverKitAssignments"
                (JValue.obj (kitCfgs.map (fun p => (p.1, removeServerFromKitCfg s p.2)))))
                "serverKitAssignments" = some (JValue.obj
                  (kitCfgs.map (fun p => (p.1, removeServerFromKitCfg s p.2)))) :=
              dget?_dinsert_self _ _ _
            rw [h1, h2]
            show ((!(dget? (derase servers s) s).isSome) &&
              ((kitCfgs.map (fun p => (p.1, removeServerFromKitCfg s p.2))).all
                (fun p => kitCfgNoServer s p.2))) = true
            rw [dget?_derase_self]
            simp only [Option.isSome_none, Bool.not_false, Bool.true_and]
            rw [List.all_eq_true]
            intro q hq
            rcases List.mem_map.mp hq with ⟨p0, hp0, heqp⟩
            rw [← heqp]
            exact kitCfg_clean s p0.2 (List.all_eq_true.mp hwf2 p0 hp0)
          | null =>
            have heq : remove_mcp_server_doc s data = Except.error PyErr.typeError := by
              unfold remove_mcp_server_doc
              rw [hms]
              show (if (dget? servers s).isSome = true then _ else _) =
                Except.error PyErr.typeError
              rw [if_pos hp, hka]
            rw [heq] at hok
            exact Except.noConfusion hok
          | bool b =>
            have heq : remove_mcp_server_doc s data = Except.error PyErr.typeError := by
              unfold remove_mcp_server_doc
              rw [hms]
              show (if (dget? servers s).isSome = true then _ else _) =
                Except.error PyErr.typeError
              rw [if_pos hp, hka]
            rw [heq] at hok
            exact Except.noConfusion hok
          | num n =>
            have heq : remove_mcp_server_doc s data = Except.error PyErr.typeError := by
              unfold remove_mcp_server_doc
              rw [hms]
              show (if (dget? servers s).isSome = true then _ else _) =
                Except.error PyErr.typeError
              rw [if_pos hp, hka]
            rw [heq] at hok
            exact Except.noConfusion hok
          | str t =>
            have heq : remove_mcp_server_doc s data = Except.error PyErr.typeError := by
              unfold remove_mcp_server_doc
              rw [hms]
              show (if (dget? servers s).isSome = true then _ else _) =
                Except.error PyErr.typeError
              rw [if_pos hp, hka]
            rw [heq] at hok
            exact Except.noConfusion hok
          | arr xs =>
            have heq : remove_mcp_server_doc s data = Except.error PyErr.typeError := by
              unfold remove_mcp_server_doc
              rw [hms]
              show (if (dget? servers s).isSome = true then _ else _) =
                Except.error PyErr.typeError
              rw [if_pos hp, hka]
            rw [heq] at hok
            exact Except.noConfusion hok
      · have heq : remove_mcp_server_doc s data = Except.error PyErr.valueError := by
          unfold remove_mcp_server_doc
          rw [hms]
          show (if (dget? servers s).isSome = true then _ else _) =
            Except.error PyErr.valueError
          rw [if_neg hp]
        rw [heq] at hok
        exact Except.noConfusion hok
    | null =>
      have heq : remove_mcp_server_doc s data = Except.error PyErr.typeError := by
        unfold remove_mcp_server_doc
        rw [hms]
      rw [heq] at hok
      exact Except.noConfusion hok
    | bool b =>
      have heq : remove_mcp_server_doc s data = Except.error PyErr.typeError := by
        unfold remove_mcp_server_doc
        rw [hms]
      rw [heq] at hok
      exact Except.noConfusion hok
    | num n =>
      have heq : remove_mcp_server_doc s data = Except.error PyErr.typeError := by
        unfold remove_mcp_server_doc
        rw [hms]
      rw [heq] at hok
      exact Except.noConfusion hok
    | str t =>
      have heq : remove_mcp_server_doc s data = Except.error PyErr.typeError := by
        unfold remove_mcp_server_doc
        rw [hms]
      rw [heq] at hok
      exact Except.noConfusion hok
    | arr xs =>
      have heq : remove_mcp_server_doc s data = Except.error PyErr.typeError := by
        unfold remove_mcp_server_doc
        rw [hms]
      rw [heq] at hok
      exact Except.noConfusion hok

/-- A successful `remove_mcp_server` writes a configuration free of `s`. -/
theorem remove_mcp_server_clean (config_path s : String) (w : WriteOutcome)
    (fs fs' : FSm)
    (hwf : loadedAssignedOnce s config_path fs = true)
    (hok : remove_mcp_server config_path s w fs = Except.ok (true, fs')) :
    configNoServer s config_path fs' = true := by
  cases hload : load_configuration config_path fs with
  | none =>
    have heq : remove_mcp_server config_path s w fs = Except.error PyErr.typeError := by
      unfold remove_mcp_server
      rw [hload]
    rw [heq] at hok
    exact Except.noConfusion hok
  | some data =>
    have hwf2 : docAssignedOnce s data = true := by
      have h := hwf
      unfold loadedAssignedOnce at h
      rw [hload] at h
      exact h
    cases hdoc : remove_mcp_server_doc s data with
    | error e =>
      have heq : remove_mcp_server config_path s w fs = Except.error e := by
        unfold remove_mcp_server
        rw [hload]
        show (match remove_mcp_server_doc s data with
          | Except.error e => (Except.error e : Except PyErr (Bool × FSm))
          | Except.ok d => Except.ok (save_configuration config_path d w fs)) =
          Except.error e
        rw [hdoc]
      rw [heq] at hok
      exact Except.noConfusion hok
    | ok data2 =>
      have heq : remove_mcp_server config_path s w fs =
          Except.ok (save_configuration config_path data2 w fs) := by
        unfold remove_mcp_server
        rw [hload]
        show (match remove_mcp_server_doc s data with
          | Except.error e => (Except.error e : Except PyErr (Bool × FSm))
          | Except.ok d => Except.ok (save_configuration config_path d w fs)) =
          Except.ok (save_configuration config_path data2 w fs)
        rw [hdoc]
      rw [heq] at hok
      injection hok with hok
      cases w with
      | fail lo =>
        have hfst : (save_configuration config_path data2 (WriteOutcome.fail lo) fs).1 =
            false := by
          simp [save_configuration]
        rw [hok] at hfst
        exact Bool.noConfusion hfst
      | ok =>
        have hsnd : (save_configuration config_path data2 WriteOutcome.ok fs).2 = fs' := by
          rw [hok]
        have hfs' : dinsert (if (dget? fs config_path).isSome then
            renameFile fs config_path (withSuffix config_path ".bak") else fs)
            config_path (JValue.obj data2) = fs' := hsnd
        unfold configNoServer
        rw [← hfs', dget?_dinsert_self]
        show docNoServer s data2 = true
        exact remove_mcp_server_doc_clean s data data2 hwf2 hdoc

/-- C3 amended: after a successful `delete_mcp_server(s)`, no kit has `s` in
`assigned_servers` (the dependency gate guarantees it), and the **persisted**
configuration has no `mcpServers` entry for `s`, no kit assignment holding
`s` in `assigned_servers` or as a `servers_enabled` key, and no persisted
`tools_enabled` key with the `"{s}-"` first component; the in-memory kits,
however, are not modified at all — their `servers_enabled`/`tools_enabled`
entries for `s` survive (the original claim fails there). -/
theorem c3_amended_delete (st : ComposerState) (s : String) (w : WriteOutcome)
    (hwf : loadedAssignedOnce s st.config_path st.fs = true)
    (hsucc : (delete_mcp_server st s w).1 = HResult.success) :
    (delete_mcp_server st s w).2.kits = st.kits ∧
      (∀ p ∈ st.kits, p.2.is_server_assigned s = false) ∧
      configNoServer s st.config_path (delete_mcp_server st s w).2.fs = true := by
  by_cases hdeps : (check_server_dependencies s st.kits).isEmpty = true
  · have hdnil : check_server_dependencies s st.kits = [] := by
      cases hl : check_server_dependencies s st.kits with
      | nil => rfl
      | cons a as => rw [hl] at hdeps; exact Bool.noConfusion hdeps
    have hpart2 : ∀ p ∈ st.kits, p.2.is_server_assigned s = false := by
      intro p hp
      cases hb : p.2.is_server_assigned s with
      | false => rfl
      | true =>
        have hmem : p.1 ∈ check_server_dependencies s st.kits :=
          List.mem_map_of_mem Prod.fst (List.mem_filter.2 ⟨hp, hb⟩)
        rw [hdnil] at hmem
        simp at hmem
    by_cases hreg : s ∈ st.registry.servers_map
    · cases hrem : remove_mcp_server st.config_path s w st.fs with
      | error e =>
        cases e with
        | valueError =>
          have h1 : (delete_mcp_server st s w).1 = HResult.failure 404 := by
            simp [delete_mcp_server, hdnil, hreg, hrem]
          rw [h1] at hsucc
          exact HResult.noConfusion hsucc
        | typeError =>
          have h1 : (delete_mcp_server st s w).1 = HResult.failure 500 := by
            simp [delete_mcp_server, hdnil, hreg, hrem]
          rw [h1] at hsucc
          exact HResult.noConfusion hsucc
      | ok pair =>
        obtain ⟨saved, fs'⟩ := pair
        cases saved with
        | false =>
          have h1 : (delete_mcp_server st s w).1 = HResult.failure 500 := by
            simp [delete_mcp_server, hdnil, hreg, hrem]
          rw [h1] at hsucc
          exact HResult.noConfusion hsucc
        | true =>
          refine ⟨?_, hpart2, ?_⟩
          · simp [delete_mcp_server, hdnil, hreg, hrem]
          · have h2 : (delete_mcp_server st s w).2.fs = fs' := by
              simp [delete_mcp_server, hdnil, hreg, hrem]
            rw [h2]
            exact remove_mcp_server_clean st.config_path s w st.fs fs' hwf hrem
    · have h1 : (delete_mcp_server st s w).1 = HResult.failure 404 := by
        simp [delete_mcp_server, hdnil, hreg]
      rw [h1] at hsucc
      exact HResult.noConfusion hsucc
  · have hd' : (check_server_dependencies s st.kits).isEmpty = false := by
      cases hb : (check_server_dependencies s st.kits).isEmpty with
      | false => rfl
      | true => exact absurd hb hdeps
    have h1 : (delete_mcp_server st s w).1 = HResult.failure 400 := by
      simp [delete_mcp_server, hd']
    rw [h1] at hsucc
    exact HResult.noConfusion hsucc

/-- Witness for amended C3 on the legacy-kit scenario. -/
theorem c3_witness :
    (delete_mcp_server stC3 "A" WriteOutcome.ok).2.kits = stC3.kits ∧
      (∀ p ∈ stC3.kits, p.2.is_server_assigned "A" = false) ∧
      configNoServer "A" stC3.config_path
        (delete_mcp_server stC3 "A" WriteOutcome.ok).2.fs = true :=
  c3_amended_delete stC3 "A" WriteOutcome.ok rfl rfl

end MCPComposer
